import Mathlib

/-!
Verification of the flag-discovery pipeline of the AICTF_2025 repository
(directory "Flag Leak": video_flag_extractor.py, youtube_extractor.py,
VLMs/Youtube_Flag_VLM.py).

The Python sources are embedded shallowly:

* text is modelled as List Char (Python str);
* the regular expressions used by the scripts are only two fixed patterns,
  FLAG_[A-Za-z0-9_]+ and FLAG_[A-Z0-9_]{4,}, both searched with re.search
  (leftmost starting position, greedy quantifier); they are embedded as an
  explicit leftmost scan (findFlag below);
* the cv2 stream metadata (CAP_PROP_FPS as a double, CAP_PROP_FRAME_COUNT
  truncated to int by the script) is modelled with an exact rational fps
  and a natural frame count; int() on a non-negative value is the floor;
* the filesystem is a list of the temporary files the scripts create
  (downloaded media, subtitle files, per-frame jpg images, per-frame OCR
  text dumps); os.path.exists / os.remove become membership / filter;
* external collaborators (yt-dlp, cv2 decoding, pytesseract) are oracles
  passed as function arguments: the download result, the per-index frame
  decode, the OCR text recognised from a frame (none models a raised OCR
  exception, which the per-frame try/except of the script swallows).
-/

namespace FlagLeak

/-- Grammar characters of the OCR pattern FLAG_[A-Z0-9_]{4,}: the class
kept by the normalization re.sub in detect_flag_with_tesseract. -/
def isUpperGrammar (c : Char) : Bool :=
  (decide ('A' ≤ c) && decide (c ≤ 'Z')) ||
  (decide ('0' ≤ c) && decide (c ≤ '9')) || c == '_'

/-- Characters matched by [A-Za-z0-9_] in the text-channel pattern
FLAG_[A-Za-z0-9_]+ of scan_description_and_subs. -/
def isWordChar (c : Char) : Bool :=
  isUpperGrammar c || (decide ('a' ≤ c) && decide (c ≤ 'z'))

/-- The literal prefix FLAG_ shared by both patterns. -/
def flagLit : List Char := ['F', 'L', 'A', 'G', '_']

/-- One attempted regex match anchored at the start of t: the literal
FLAG_ followed by the greedy maximal run of characters satisfying p, which
must have length at least minLen (1 for the + quantifier of the text
channels, 4 for the {4,} quantifier of the OCR channel). -/
def matchAt (p : Char → Bool) (minLen : Nat) (t : List Char) : Option (List Char) :=
  if flagLit.isPrefixOf t then
    if minLen ≤ ((t.drop flagLit.length).takeWhile p).length then
      some (flagLit ++ (t.drop flagLit.length).takeWhile p)
    else none
  else none

/-- re.search for the pattern FLAG_ followed by at least minLen characters
satisfying p: tries every start position from the left and returns the
first (leftmost) successful greedy match. -/
def findFlag (p : Char → Bool) (minLen : Nat) : List Char → Option (List Char)
  | [] => none
  | c :: cs =>
    match matchAt p minLen (c :: cs) with
    | some tok => some tok
    | none => findFlag p minLen cs

/-- Embeds the normalization step of detect_flag_with_tesseract:
re.sub(r"[^A-Z0-9_]", "", text.upper()) - upper-case the original text,
then delete every character outside the upper grammar class. (Char.toUpper
models str.upper on the ASCII range, which is the only range that can
survive the filter.) -/
def normalizeOCR (t : List Char) : List Char :=
  (t.map Char.toUpper).filter isUpperGrammar

example : findFlag isWordChar 1 (String.toList ("see FLAG_AB12 now")) =
    some (String.toList ("FLAG_AB12")) := by decide

example : normalizeOCR (String.toList ("see FLAG_AB12 now")) =
    String.toList ("SEEFLAG_AB12NOW") := by decide

example : findFlag isUpperGrammar 4 (normalizeOCR (String.toList ("no flag here"))) =
    none := by decide

/-- A successful anchored match needs the literal FLAG_ at the front. -/
lemma matchAt_some_starts {p : Char → Bool} {m : Nat} {t tok : List Char}
    (h : matchAt p m t = some tok) : flagLit <+: t := by
  unfold matchAt at h
  split at h
  · exact List.isPrefixOf_iff_prefix.mp (by assumption)
  · exact absurd h (by simp)

/-- Any token found by findFlag witnesses an occurrence of the literal
FLAG_ somewhere in the scanned text. -/
lemma findFlag_some_occurs {p : Char → Bool} {m : Nat} {t tok : List Char}
    (h : findFlag p m t = some tok) : flagLit <:+: t := by
  induction t with
  | nil => simp [findFlag] at h
  | cons c cs ih =>
    rw [findFlag] at h
    cases hm : matchAt p m (c :: cs) with
    | some tok' =>
      exact (matchAt_some_starts hm).isInfix
    | none =>
      rw [hm] at h
      exact List.infix_cons (ih h)

/-- When every character of the text satisfies p, a successful anchored
match consumes the whole text: the greedy run cannot stop early. -/
lemma matchAt_some_all {p : Char → Bool} {m : Nat} {t tok : List Char}
    (hall : ∀ a ∈ t, p a = true) (h : matchAt p m t = some tok) : tok = t := by
  unfold matchAt at h
  split at h
  · have hpre : flagLit <+: t := List.isPrefixOf_iff_prefix.mp (by assumption)
    have hrun : (t.drop flagLit.length).takeWhile p = t.drop flagLit.length := by
      apply List.takeWhile_eq_self_iff.mpr
      intro a ha
      exact hall a (List.mem_of_mem_drop ha)
    rw [hrun] at h
    split at h
    · have htt := Option.some.inj h
      rw [← htt]
      exact List.prefix_iff_eq_append.mp hpre
    · exact absurd h (by simp)
  · exact absurd h (by simp)

/-- When every character of the text satisfies p, any token findFlag
returns runs to the very end of the text: it is a suffix. -/
lemma findFlag_some_suffix {p : Char → Bool} {m : Nat} {t tok : List Char}
    (hall : ∀ a ∈ t, p a = true) (h : findFlag p m t = some tok) : tok <:+ t := by
  induction t with
  | nil => simp [findFlag] at h
  | cons c cs ih =>
    rw [findFlag] at h
    cases hm : matchAt p m (c :: cs) with
    | some tok' =>
      rw [hm] at h
      have heq : tok' = tok := Option.some.inj h
      have hall' := matchAt_some_all hall hm
      rw [heq] at hall'
      rw [hall']
    | none =>
      rw [hm] at h
      have hall' : ∀ a ∈ cs, p a = true := fun a ha => hall a (List.mem_cons_of_mem c ha)
      exact (ih hall' h).trans (List.suffix_cons c cs)

/-- Every character surviving normalizeOCR is in the upper grammar class. -/
lemma normalizeOCR_all (t : List Char) :
    ∀ a ∈ normalizeOCR t, isUpperGrammar a = true := by
  intro a ha
  exact List.of_mem_filter ha

/-- C8: token matching without normalization on "see FLAG_AB12 now"
returns exactly "FLAG_AB12" (leftmost match stopping at the space);
OCR-channel normalization upper-cases the original text and strips
characters outside the upper grammar class, preserving the underscore
separator; and a text whose normalized form has no literal FLAG_
occurrence yields no OCR match. -/
theorem token_matching_behaviour :
    findFlag isWordChar 1 (String.toList ("see FLAG_AB12 now")) =
      some (String.toList ("FLAG_AB12")) ∧
    normalizeOCR (String.toList ("see FLAG_AB12 now")) =
      String.toList ("SEEFLAG_AB12NOW") ∧
    (∀ t : List Char, ¬ (flagLit <:+: normalizeOCR t) →
      findFlag isUpperGrammar 4 (normalizeOCR t) = none) := by
  refine ⟨by decide, by decide, ?_⟩
  intro t hno
  cases h : findFlag isUpperGrammar 4 (normalizeOCR t) with
  | none => rfl
  | some tok => exact absurd (findFlag_some_occurs h) hno

/-- Witness for the hypothesis-bearing conjunct of token_matching_behaviour:
a concrete text whose normalized form has no FLAG_ occurrence produces no
OCR-channel match. -/
theorem token_matching_behaviour_witness :
    findFlag isUpperGrammar 4 (normalizeOCR (String.toList ("hello world"))) = none :=
  token_matching_behaviour.2.2 (String.toList ("hello world")) (by decide)

/-- C10: because normalization deletes every character outside the upper
grammar class, the token detect_flag_with_tesseract extracts from a
normalized OCR text always extends to the very end of that normalized
text - it is a suffix of it. -/
theorem ocr_token_is_suffix (t tok : List Char)
    (h : findFlag isUpperGrammar 4 (normalizeOCR t) = some tok) :
    tok <:+ normalizeOCR t :=
  findFlag_some_suffix (normalizeOCR_all t) h

/-- Witness for ocr_token_is_suffix: an OCR text with trailing on-screen
noise, whose extracted token absorbs everything after FLAG_. -/
theorem ocr_token_is_suffix_witness :
    findFlag isUpperGrammar 4 (normalizeOCR (String.toList ("x FLAG_AB12 yz"))) =
      some (String.toList ("FLAG_AB12YZ")) ∧
    String.toList ("FLAG_AB12YZ") <:+ normalizeOCR (String.toList ("x FLAG_AB12 yz")) :=
  ⟨by decide, ocr_token_is_suffix (String.toList ("x FLAG_AB12 yz"))
    (String.toList ("FLAG_AB12YZ")) (by decide)⟩

/-- OCR-relevant content of one decoded frame: what recognition would
read off it. The raw pixel data never influences control flow except
through recognition, so frames are modelled by this content. -/
abbrev Image := List Char

/-- Embeds Python range(0, stop, step) for positive step: the multiples
of step below stop, in increasing order. -/
def pyRange (stop step : Nat) : List Nat :=
  (List.range stop).filter (fun x => decide (x % step = 0))

/-- Embeds the FPS defaulting of extract_frames_every_n_seconds in
video_flag_extractor.py: a reported rate of 0 is replaced by 30. -/
def effFps (fps0 : ℚ) : ℚ :=
  if fps0 = 0 then 30 else fps0

/-- Embeds int(duration) with duration = total_frames / fps: the floor of
a non-negative value. -/
def durFloor (fps : ℚ) (totalFrames : Nat) : Nat :=
  (⌊(totalFrames : ℚ) / fps⌋).toNat

/-- Embeds frame_num = int(fps * sec) inside the sampling loop. -/
def frameNum (fps : ℚ) (sec : Nat) : Nat :=
  (⌊fps * (sec : ℚ)⌋).toNat

/-- Embeds extract_frames_every_n_seconds of video_flag_extractor.py.
The cv2 capture is modelled by the reported rate fps0, the reported total
frame count, and the decode oracle readAt (cap.set to an index followed by
cap.read; none models a failed read, which emits no sample). The source
defaults a zero rate to 30, returns the empty list when the total count or
the rate is zero, and otherwise collects (sec, frame) for each sec in
range(0, int(duration), interval) whose read succeeds. -/
def extract_frames_every_n_seconds (fps0 : ℚ) (totalFrames : Nat)
    (readAt : Nat → Option Image) (interval : Nat) : List (Nat × Image) :=
  if totalFrames = 0 ∨ effFps fps0 = 0 then []
  else
    (pyRange (durFloor (effFps fps0) totalFrames) interval).filterMap
      (fun sec => (readAt (frameNum (effFps fps0) sec)).map (fun img => (sec, img)))

lemma mem_pyRange {x stop step : Nat} (h : x ∈ pyRange stop step) :
    x < stop ∧ x % step = 0 := by
  unfold pyRange at h
  have h1 := List.mem_filter.mp h
  exact ⟨List.mem_range.mp h1.1, by simpa using h1.2⟩

lemma zero_mem_pyRange {stop step : Nat} (h : 0 < stop) : 0 ∈ pyRange stop step := by
  unfold pyRange
  exact List.mem_filter.mpr ⟨List.mem_range.mpr h, by simp⟩

lemma effFps_pos {fps0 : ℚ} (h : 0 ≤ fps0) : 0 < effFps fps0 := by
  unfold effFps
  split
  · norm_num
  · exact lt_of_le_of_ne h (by symm; assumption)

/-- C7: for every offset sec produced by the sampling loop (over the
possibly-defaulted rate), the frame index sought is the floor of
fps * sec and lies strictly below the reported total frame count. -/
theorem sampled_frame_index_in_range (fps0 : ℚ) (totalFrames interval sec : Nat)
    (hf : 0 ≤ fps0) (hi : 0 < interval)
    (hs : sec ∈ pyRange (durFloor (effFps fps0) totalFrames) interval) :
    frameNum (effFps fps0) sec = (⌊effFps fps0 * (sec : ℚ)⌋).toNat ∧
    frameNum (effFps fps0) sec < totalFrames := by
  refine ⟨rfl, ?_⟩
  have hpos : 0 < effFps fps0 := effFps_pos hf
  have hlt : sec < durFloor (effFps fps0) totalFrames := (mem_pyRange hs).1
  have hz : (sec : ℤ) < ⌊(totalFrames : ℚ) / effFps fps0⌋ := by
    unfold durFloor at hlt
    omega
  have h2 : ((sec : ℚ) + 1) ≤ (totalFrames : ℚ) / effFps fps0 := by
    have h2' : (sec : ℤ) + 1 ≤ ⌊(totalFrames : ℚ) / effFps fps0⌋ := hz
    have h2c := Int.le_floor.mp h2'
    push_cast at h2c
    linarith
  have h3 : ((sec : ℚ) + 1) * effFps fps0 ≤ (totalFrames : ℚ) :=
    (le_div_iff₀ hpos).mp h2
  have h4 : effFps fps0 * (sec : ℚ) < (totalFrames : ℚ) := by nlinarith
  have h5 : ⌊effFps fps0 * (sec : ℚ)⌋ < (totalFrames : ℤ) := by
    rw [Int.floor_lt]
    push_cast
    exact h4
  have h6 : (0 : ℚ) < (totalFrames : ℚ) :=
    lt_of_le_of_lt (by positivity) h4
  have h7 : 0 < totalFrames := by exact_mod_cast h6
  unfold frameNum
  omega

/-- Witness for sampled_frame_index_in_range at a stream reporting rate 0
(defaulted to 30) with 60 total frames, sampling second 1. -/
theorem sampled_frame_index_in_range_witness :
    frameNum (effFps 0) 1 = (⌊effFps 0 * ((1 : Nat) : ℚ)⌋).toNat ∧
    frameNum (effFps 0) 1 < 60 :=
  sampled_frame_index_in_range 0 60 1 1 (by norm_num) (by norm_num) (by
    have h2 : durFloor (effFps 0) 60 = 2 := by
      norm_num [durFloor, effFps]
      decide
    rw [h2]
    decide)

/-- C3 fails as stated: with reported rate 0 the sampler defaults to 30,
but a stream of 10 frames (10 > 0, every decode succeeding) has
int(duration) = int(10 / 30) = 0, so the sampling loop body never runs and
the produced sequence is empty. -/
theorem fps_default_counterexample :
    effFps 0 = 30 ∧ (0 : Nat) < 10 ∧
    extract_frames_every_n_seconds 0 10 (fun _ => some (String.toList ("x"))) 1 = [] := by
  refine ⟨by norm_num [effFps], by norm_num, ?_⟩
  have hd : durFloor (effFps 0) 10 = 0 := by norm_num [durFloor, effFps]
  unfold extract_frames_every_n_seconds
  rw [if_neg (by push_neg; exact ⟨by norm_num, by norm_num [effFps]⟩)]
  rw [hd]
  rfl

/-- C3 amended: with reported rate 0 the sampler uses the default rate 30,
and produces a non-empty sequence whenever the total frame count is at
least 30 (so that int(duration) is at least 1) and the decode of frame 0
succeeds. -/
theorem fps_default_nonempty_amended (totalFrames interval : Nat)
    (readAt : Nat → Option Image) (img : Image)
    (h30 : 30 ≤ totalFrames) (hr : readAt 0 = some img) (hi : 0 < interval) :
    effFps 0 = 30 ∧
    extract_frames_every_n_seconds 0 totalFrames readAt interval ≠ [] := by
  refine ⟨by norm_num [effFps], ?_⟩
  have he : effFps 0 = 30 := by norm_num [effFps]
  have hd : 0 < durFloor 30 totalFrames := by
    unfold durFloor
    have h1 : (1 : ℤ) ≤ ⌊(totalFrames : ℚ) / 30⌋ := by
      rw [Int.le_floor]
      rw [le_div_iff₀ (by norm_num : (0:ℚ) < 30)]
      have h30' : (30 : ℚ) ≤ (totalFrames : ℚ) := by exact_mod_cast h30
      push_cast
      linarith
    omega
  have hfn : frameNum 30 0 = 0 := by
    unfold frameNum
    norm_num
  have hmem : (0, img) ∈ extract_frames_every_n_seconds 0 totalFrames readAt interval := by
    unfold extract_frames_every_n_seconds
    rw [he]
    rw [if_neg (by push_neg; exact ⟨by omega, by norm_num⟩)]
    apply List.mem_filterMap.mpr
    refine ⟨0, zero_mem_pyRange hd, ?_⟩
    rw [hfn, hr]
    rfl
  exact List.ne_nil_of_mem hmem

/-- Witness for fps_default_nonempty_amended: 30 frames at reported rate 0
with every decode succeeding give a non-empty sample sequence. -/
theorem fps_default_nonempty_amended_witness :
    effFps 0 = 30 ∧
    extract_frames_every_n_seconds 0 30 (fun _ => some (String.toList ("x"))) 1 ≠ [] :=
  fps_default_nonempty_amended 30 1 (fun _ => some (String.toList ("x")))
    (String.toList ("x")) (by norm_num) rfl (by norm_num)

/-- Outcome of one ydl.extract_info call inside the metadata loop of
get_and_sort_youtube_videos (youtube_extractor.py): the info dictionary
with its optional upload_date and its title, a DownloadError whose message
marks it rate-limited or unavailable (retried), or any other error
(DownloadError of another kind, or an unexpected exception - both break). -/
inductive FetchOutcome
  | ok (uploadDate : Option Nat) (title : String)
  | retryableErr
  | fatalErr

/-- A video reference resolved by the metadata loop. -/
structure ResolvedVideo where
  date : Nat
  title : String
deriving DecidableEq

/-- Embeds the while-loop of get_and_sort_youtube_videos for one link.
The loop runs while attempt < max_retries; fuel is the number of
remaining iterations (max_retries - attempt), so the structure of the
source loop is preserved exactly. On a retryable DownloadError the source
first increments attempt and then sleeps initial_delay * (attempt + 1)
seconds - with the pre-increment index a this is initial_delay * (a + 2).
The returned list records the sleeps performed, in order; the option is
the resolved reference (none when the date is missing, the error is not
retryable, or the attempts are exhausted - the while-else branch). -/
def metadata_retry_loop (fetch : Nat → FetchOutcome) (initial_delay : Nat) :
    Nat → Nat → List Nat × Option ResolvedVideo
  | 0, _ => ([], none)
  | fuel + 1, attempt =>
    match fetch attempt with
    | FetchOutcome.ok (some d) t => ([], some ⟨d, t⟩)
    | FetchOutcome.ok none _ => ([], none)
    | FetchOutcome.retryableErr =>
      let rest := metadata_retry_loop fetch initial_delay fuel (attempt + 1)
      (initial_delay * (attempt + 2) :: rest.1, rest.2)
    | FetchOutcome.fatalErr => ([], none)

/-- Embeds the per-link body of get_and_sort_youtube_videos: the loop is
entered with attempt = 0 and runs for at most max_retries attempts. -/
def fetch_video_metadata (fetch : Nat → FetchOutcome)
    (initial_delay max_retries : Nat) : List Nat × Option ResolvedVideo :=
  metadata_retry_loop fetch initial_delay max_retries 0

/-- A fetch behaviour with two retryable failures and then a success. -/
def twoRateLimitedFetch : Nat → FetchOutcome
  | 0 => FetchOutcome.retryableErr
  | 1 => FetchOutcome.retryableErr
  | _ => FetchOutcome.ok (some 20240101) ("t")

/-- C2 fails as stated: with initial_delay = 30 and two consecutive
retryable failures, the source increments attempt before computing the
sleep, so the recorded sleeps are 60 and 90 seconds, not the claimed 30
and 60; the third attempt still resolves the reference. -/
theorem retry_delay_counterexample :
    fetch_video_metadata twoRateLimitedFetch 30 3 =
      ([60, 90], some ⟨20240101, ("t")⟩) ∧
    ([60, 90] : List Nat) ≠ [30, 60] := by
  exact ⟨rfl, by decide⟩

/-- C2 amended: with retryable failures on attempts 0 and 1 and a success
on attempt 2, the sleep before the first retry is initialDelay * 2 and the
sleep before the second retry is initialDelay * 3 (the delay before retry
k, counting failed attempts from index 0, is initialDelay * (k + 2)); the
successful third attempt adds the resolved reference with no further
sleep. -/
theorem retry_delay_schedule (fetch : Nat → FetchOutcome) (d date : Nat) (t : String)
    (h0 : fetch 0 = FetchOutcome.retryableErr)
    (h1 : fetch 1 = FetchOutcome.retryableErr)
    (h2 : fetch 2 = FetchOutcome.ok (some date) t) :
    fetch_video_metadata fetch d 3 = ([d * 2, d * 3], some ⟨date, t⟩) := by
  unfold fetch_video_metadata
  unfold metadata_retry_loop
  rw [h0]
  unfold metadata_retry_loop
  rw [h1]
  unfold metadata_retry_loop
  rw [h2]

/-- Witness for retry_delay_schedule at initial_delay = 30: the sleeps are
60 then 90 seconds. -/
theorem retry_delay_schedule_witness :
    fetch_video_metadata twoRateLimitedFetch 30 3 =
      ([30 * 2, 30 * 3], some ⟨20240101, ("t")⟩) :=
  retry_delay_schedule twoRateLimitedFetch 30 20240101 ("t") rfl rfl rfl

/-- The temporary files scan_video and its helpers create: the downloaded
media file at some path, a subtitle file, and the per-frame jpg image and
OCR text dump that detect_flag_with_tesseract writes under the
frames_videoId directory. -/
inductive TmpFile
  | media (path : String)
  | sub (name : String)
  | frameImg (videoId : String) (sec : Nat)
  | ocrTxt (videoId : String) (sec : Nat)
deriving DecidableEq

/-- The filesystem as the collection of temporary files currently on
disk. -/
abbrev FS := List TmpFile

/-- Embeds os.path.exists. -/
def fsHas (fs : FS) (f : TmpFile) : Bool :=
  fs.any (fun g => decide (g = f))

/-- Embeds os.remove (an absent target is a logged no-op in the source,
since every removal is wrapped in try/except OSError). -/
def fsRemove (fs : FS) (f : TmpFile) : FS :=
  fs.filter (fun g => decide (g ≠ f))

lemma fsHas_iff_mem {fs : FS} {f : TmpFile} : fsHas fs f = true ↔ f ∈ fs := by
  unfold fsHas
  simp [List.any_eq_true]

lemma not_mem_fsRemove (fs : FS) (f : TmpFile) : f ∉ fsRemove fs f := by
  intro h
  have := (List.mem_filter.mp h).2
  simp at this

/-- The channel a match was reported from (the source string of the
returned pair: "description", "subtitles", or "visual at sec sec"). -/
inductive Source
  | description
  | subtitles
  | visual (sec : Nat)
deriving DecidableEq

/-- Evidence channels actually reached during one scan_video run, in
order; used to state which channels a run consulted. -/
inductive Chan
  | desc
  | subs
  | frames
deriving DecidableEq

/-- The keys of the yt-dlp info dictionary that scan_video and
scan_description_and_subs consult: the description text, the id reported
by the extractor, the requested_downloads filepath list, and the optional
top-level _filename and filepath keys. -/
structure InfoDict where
  description : List Char
  infoId : String
  requested : List String
  filename : Option String
  filepath : Option String

/-- Result of a ydl.extract_info(url, download=True) call that did not
raise: the info dictionary, together with the files the call wrote to disk
(the media file and any subtitle files). -/
structure DlResult where
  info : InfoDict
  written : List TmpFile

/-- The reported stream properties and decode behaviour of a media file
on disk, consumed by extract_frames_every_n_seconds. -/
structure StreamData where
  fps0 : ℚ
  totalFrames : Nat
  readAt : Nat → Option Image

/-- Embeds the subtitle candidate list of scan_description_and_subs. -/
def possible_sub_files (videoId : String) (info : InfoDict) : List String :=
  [videoId ++ (".en.vtt"), info.infoId ++ (".en.vtt")]

/-- Embeds scan_description_and_subs of video_flag_extractor.py. First
matches the text pattern against the description; on failure looks for the
first existing subtitle candidate file and matches its content (read
through the subContent oracle). Besides the source's return value it also
records the channels consulted. -/
def scan_description_and_subs (info : InfoDict) (videoId : String) (fs : FS)
    (subContent : String → List Char) :
    Option (List Char × Source) × List Chan :=
  match findFlag isWordChar 1 info.description with
  | some tok => (some (tok, Source.description), [Chan.desc])
  | none =>
    match (possible_sub_files videoId info).find? (fun n => fsHas fs (TmpFile.sub n)) with
    | some n =>
      match findFlag isWordChar 1 (subContent n) with
      | some tok => (some (tok, Source.subtitles), [Chan.desc, Chan.subs])
      | none => (none, [Chan.desc, Chan.subs])
    | none => (none, [Chan.desc])

/-- Embeds detect_flag_with_tesseract of video_flag_extractor.py over the
filesystem. Per frame, in order: the jpg image is written, the
preprocessing plus pytesseract chain runs (the recognize oracle; none
models a raised OCR exception, which the per-frame try/except swallows
after the jpg was already written), the OCR text dump is written, the text
is normalized and matched; the first match returns immediately, leaving
all files in place. -/
def detect_flag_with_tesseract (recognize : Image → Option (List Char))
    (videoId : String) : List (Nat × Image) → FS → Option (List Char × Nat) × FS
  | [], fs => (none, fs)
  | (sec, img) :: rest, fs =>
    let fs1 := TmpFile.frameImg videoId sec :: fs
    match recognize img with
    | none => detect_flag_with_tesseract recognize videoId rest fs1
    | some text =>
      let fs2 := TmpFile.ocrTxt videoId sec :: fs1
      match findFlag isUpperGrammar 4 (normalizeOCR text) with
      | some tok => (some (tok, sec), fs2)
      | none => detect_flag_with_tesseract recognize videoId rest fs2

/-- Embeds lines 197-210 of scan_video: the local media path defaults to
videoId ++ ".mp4"; only when no file exists at that default is the path
probed from the info dictionary, trying requested_downloads[0].filepath,
then _filename, then filepath (and keeping the default when none of the
keys is present). -/
def resolve_download_path (videoId : String) (info : InfoDict) (fs : FS) : String :=
  if fsHas fs (TmpFile.media (videoId ++ (".mp4"))) then videoId ++ (".mp4")
  else
    match info.requested with
    | p :: _ => p
    | [] =>
      match info.filename with
      | some p => p
      | none =>
        match info.filepath with
        | some p => p
        | none => videoId ++ (".mp4")

/-- Embeds scan_video of video_flag_extractor.py. The download is the dl
argument: none models ydl.extract_info raising (caught by the except
DownloadError handler, which only logs - the function then returns
(None, None) touching nothing); some r models a completed call whose
written files join the filesystem. Then, as in the source: the media path
is resolved, description and subtitles are scanned first (on a match the
media file is removed and the match returned), otherwise, when the media
file exists on disk, frames are extracted and scanned and the media file
is removed afterwards. The third component records the channels
consulted. -/
def scan_video (videoId : String) (dl : Option DlResult)
    (stream : String → StreamData) (recognize : Image → Option (List Char))
    (subContent : String → List Char) (fs0 : FS) :
    Option (List Char × Source) × FS × List Chan :=
  match dl with
  | none => (none, fs0, [])
  | some r =>
    let fs1 := r.written ++ fs0
    let path := resolve_download_path videoId r.info fs1
    match scan_description_and_subs r.info videoId fs1 subContent with
    | (some res, evs) => (some res, fsRemove fs1 (TmpFile.media path), evs)
    | (none, evs) =>
      if fsHas fs1 (TmpFile.media path) then
        let st := stream path
        let frames := extract_frames_every_n_seconds st.fps0 st.totalFrames st.readAt 1
        let pr :=
          if frames.isEmpty then (none, fs1)
          else detect_flag_with_tesseract recognize videoId frames fs1
        (pr.1.map (fun q => (q.1, Source.visual q.2)),
          fsRemove pr.2 (TmpFile.media path), evs ++ [Chan.frames])
      else
        (none, fs1, evs)

/-- The text-channel scan always consults the description channel and
never the frames channel. -/
lemma sds_trace (info : InfoDict) (videoId : String) (fs : FS)
    (subContent : String → List Char) :
    Chan.desc ∈ (scan_description_and_subs info videoId fs subContent).2 ∧
    Chan.frames ∉ (scan_description_and_subs info videoId fs subContent).2 := by
  unfold scan_description_and_subs
  split
  · simp
  · split
    · split
      · simp
      · simp
    · simp

/-- C1 amended: the downloaded media file (at the resolved path) is gone
when scan_video returns, whenever the extract_info call returned an info
dictionary - on the text-channel-match path, the frame-scan path, and the
media-missing path alike. (The per-frame jpg images, the OCR text dumps
and the subtitle files are never removed, and on the DownloadError path
nothing is removed; see the counterexample.) -/
theorem scan_video_removes_media (videoId : String) (r : DlResult)
    (stream : String → StreamData) (recognize : Image → Option (List Char))
    (subContent : String → List Char) (fs0 : FS) :
    TmpFile.media (resolve_download_path videoId r.info (r.written ++ fs0)) ∉
      (scan_video videoId (some r) stream recognize subContent fs0).2.1 := by
  cases hsds : scan_description_and_subs r.info videoId (r.written ++ fs0) subContent with
  | mk res evs =>
    cases res with
    | some v =>
      simp only [scan_video, hsds]
      exact not_mem_fsRemove _ _
    | none =>
      by_cases hex : fsHas (r.written ++ fs0)
          (TmpFile.media (resolve_download_path videoId r.info (r.written ++ fs0))) = true
      · simp only [scan_video, hsds, hex, if_true]
        exact not_mem_fsRemove _ _
      · simp only [scan_video, hsds, hex, if_false, Bool.false_eq_true]
        intro hmem
        exact hex (fsHas_iff_mem.mpr hmem)

/-- Concrete sampling run used below: a 30-frame stream reporting 30 fps
whose every decode succeeds with the same content; exactly one second
(second 0, frame index 0) is sampled. -/
lemma extract_concrete :
    extract_frames_every_n_seconds 30 30 (fun _ => some (String.toList ("hi"))) 1 =
      [(0, String.toList ("hi"))] := by
  have he : effFps 30 = 30 := by norm_num [effFps]
  have hd : durFloor (effFps 30) 30 = 1 := by
    rw [he]
    norm_num [durFloor]
  have hf : frameNum (effFps 30) 0 = 0 := by
    rw [he]
    norm_num [frameNum]
  unfold extract_frames_every_n_seconds
  rw [if_neg (by push_neg; exact ⟨by norm_num, by rw [he]; norm_num⟩)]
  rw [hd]
  have hpr : pyRange 1 1 = [0] := rfl
  rw [hpr]
  rw [List.filterMap]
  rw [hf]
  rfl

/-- C1 fails as stated: a completed run over a video with an empty
description, an existing subtitle file without a match, and one scanned
frame without a match, ends with the per-frame jpg, the per-frame OCR
text dump and the subtitle file still on disk (only the media file was
removed). -/
theorem temp_cleanup_counterexample :
    (scan_video ("v")
        (some ⟨⟨[], ("v"), [], none, none⟩,
          [TmpFile.media ("v.mp4"), TmpFile.sub ("v.en.vtt")]⟩)
        (fun _ => ⟨30, 30, fun _ => some (String.toList ("hi"))⟩)
        (fun t => some t) (fun _ => String.toList ("hello")) []).2.1 =
      [TmpFile.ocrTxt ("v") 0, TmpFile.frameImg ("v") 0, TmpFile.sub ("v.en.vtt")] := by
  have hsds : scan_description_and_subs ⟨[], ("v"), [], none, none⟩ ("v")
      [TmpFile.media ("v.mp4"), TmpFile.sub ("v.en.vtt")]
      (fun _ => String.toList ("hello")) = (none, [Chan.desc, Chan.subs]) := by decide
  have hpath : resolve_download_path ("v") ⟨[], ("v"), [], none, none⟩
      [TmpFile.media ("v.mp4"), TmpFile.sub ("v.en.vtt")] = ("v.mp4") := by decide
  have hhas : fsHas [TmpFile.media ("v.mp4"), TmpFile.sub ("v.en.vtt")]
      (TmpFile.media ("v.mp4")) = true := by decide
  have hdet : detect_flag_with_tesseract (fun t => some t) ("v")
      [(0, String.toList ("hi"))]
      [TmpFile.media ("v.mp4"), TmpFile.sub ("v.en.vtt")] =
      (none, [TmpFile.ocrTxt ("v") 0, TmpFile.frameImg ("v") 0,
        TmpFile.media ("v.mp4"), TmpFile.sub ("v.en.vtt")]) := by decide
  simp only [scan_video, List.append_nil, hsds, hpath, hhas, if_true, extract_concrete,
    hdet, List.isEmpty_cons]
  decide

/-- Witness for scan_video_removes_media: a completed concrete run leaves
no media file at the resolved path. -/
theorem scan_video_removes_media_witness :
    TmpFile.media (resolve_download_path ("w")
        (InfoDict.mk [] ("w") [] none none)
        ([TmpFile.media ("w.mp4")] ++ [])) ∉
      (scan_video ("w")
        (some ⟨⟨[], ("w"), [], none, none⟩, [TmpFile.media ("w.mp4")]⟩)
        (fun _ => ⟨30, 0, fun _ => none⟩) (fun t => some t)
        (fun _ => []) []).2.1 :=
  scan_video_removes_media ("w") ⟨⟨[], ("w"), [], none, none⟩, [TmpFile.media ("w.mp4")]⟩
    (fun _ => ⟨30, 0, fun _ => none⟩) (fun t => some t) (fun _ => []) []

/-- C4 fails as stated: when the download raises, the except DownloadError
handler returns (None, None) at once - no channel at all is scanned, in
particular the description channel is never attempted, whatever text the
metadata stage had seen. -/
theorem text_channel_counterexample :
    scan_video ("v") none (fun _ => ⟨30, 30, fun _ => none⟩) (fun t => some t)
      (fun _ => []) [] = (none, [], []) := rfl

/-- C4 amended: when extract_info returns an info dictionary but the media
file is absent from disk, scan_video scans the description (and subtitle)
text channels and skips only the frame channel; its outcome is exactly
what the text-channel scan produced (a match or nothing). When the
download raises instead, nothing is scanned (see the counterexample). -/
theorem text_channels_when_media_missing (videoId : String) (r : DlResult)
    (stream : String → StreamData) (recognize : Image → Option (List Char))
    (subContent : String → List Char) (fs0 : FS)
    (hmiss : fsHas (r.written ++ fs0)
      (TmpFile.media (resolve_download_path videoId r.info (r.written ++ fs0))) = false) :
    (scan_video videoId (some r) stream recognize subContent fs0).1 =
      (scan_description_and_subs r.info videoId (r.written ++ fs0) subContent).1 ∧
    Chan.desc ∈ (scan_video videoId (some r) stream recognize subContent fs0).2.2 ∧
    Chan.frames ∉ (scan_video videoId (some r) stream recognize subContent fs0).2.2 := by
  have htr := sds_trace r.info videoId (r.written ++ fs0) subContent
  cases hsds : scan_description_and_subs r.info videoId (r.written ++ fs0) subContent with
  | mk res evs =>
    rw [hsds] at htr
    cases res with
    | some v =>
      simp only [scan_video, hsds]
      exact ⟨trivial, htr.1, htr.2⟩
    | none =>
      simp only [scan_video, hsds, hmiss, if_false, Bool.false_eq_true]
      exact ⟨trivial, htr.1, htr.2⟩

/-- Witness for text_channels_when_media_missing: metadata succeeded, the
media file is missing, the description holds a token - the token is still
reported. -/
theorem text_channels_when_media_missing_witness :
    (scan_video ("v")
        (some ⟨⟨String.toList ("go FLAG_x123 go"), ("v"), [], none, none⟩, []⟩)
        (fun _ => ⟨30, 30, fun _ => none⟩) (fun t => some t)
        (fun _ => []) []).1 =
      (scan_description_and_subs ⟨String.toList ("go FLAG_x123 go"), ("v"), [], none, none⟩
        ("v") ([] ++ []) (fun _ => [])).1 ∧
    Chan.desc ∈ (scan_video ("v")
        (some ⟨⟨String.toList ("go FLAG_x123 go"), ("v"), [], none, none⟩, []⟩)
        (fun _ => ⟨30, 30, fun _ => none⟩) (fun t => some t)
        (fun _ => []) []).2.2 ∧
    Chan.frames ∉ (scan_video ("v")
        (some ⟨⟨String.toList ("go FLAG_x123 go"), ("v"), [], none, none⟩, []⟩)
        (fun _ => ⟨30, 30, fun _ => none⟩) (fun t => some t)
        (fun _ => []) []).2.2 :=
  text_channels_when_media_missing ("v")
    ⟨⟨String.toList ("go FLAG_x123 go"), ("v"), [], none, none⟩, []⟩
    (fun _ => ⟨30, 30, fun _ => none⟩) (fun t => some t) (fun _ => []) [] (by decide)

/-- C5 fails as stated: when a file exists at the constructed default path
videoId.mp4, that default wins even though the info dictionary reports a
different (also existing) path in requested_downloads - the reported path
is not consulted. -/
theorem download_path_counterexample :
    resolve_download_path ("v") ⟨[], ("v"), [("other.mp4")], none, none⟩
      [TmpFile.media ("v.mp4"), TmpFile.media ("other.mp4")] = ("v.mp4") ∧
    ("v.mp4") ≠ ("other.mp4") := by
  exact ⟨by decide, by decide⟩

/-- C5 amended: the constructed default path videoId.mp4 takes precedence
whenever a file exists there; the path reported by the collaborator
(requested_downloads first) is consulted only when no file exists at the
default path. -/
theorem download_path_default_precedence (videoId : String) (info : InfoDict) (fs : FS) :
    (fsHas fs (TmpFile.media (videoId ++ (".mp4"))) = true →
      resolve_download_path videoId info fs = videoId ++ (".mp4")) ∧
    (fsHas fs (TmpFile.media (videoId ++ (".mp4"))) = false →
      ∀ p ps, info.requested = p :: ps → resolve_download_path videoId info fs = p) := by
  constructor
  · intro h
    unfold resolve_download_path
    rw [if_pos h]
  · intro h p ps hreq
    unfold resolve_download_path
    rw [if_neg (by simp [h]), hreq]

/-- Witness for download_path_default_precedence: with the default on
disk the default is used; with no default on disk the reported path is
used. -/
theorem download_path_default_precedence_witness :
    resolve_download_path ("v") ⟨[], ("v"), [("other.mp4")], none, none⟩
      [TmpFile.media ("v.mp4")] = ("v") ++ (".mp4") ∧
    resolve_download_path ("v") ⟨[], ("v"), [("other.mp4")], none, none⟩ [] = ("other.mp4") :=
  ⟨(download_path_default_precedence ("v") ⟨[], ("v"), [("other.mp4")], none, none⟩
      [TmpFile.media ("v.mp4")]).1 (by decide),
   (download_path_default_precedence ("v") ⟨[], ("v"), [("other.mp4")], none, none⟩
      []).2 (by decide) ("other.mp4") [] rfl⟩

/-- C6: whenever the description matches the text pattern, scan_video
reports that token with the description channel, and the frame channel is
never consulted - whatever the frames (or the subtitles) contain. -/
theorem description_priority (videoId : String) (r : DlResult)
    (stream : String → StreamData) (recognize : Image → Option (List Char))
    (subContent : String → List Char) (fs0 : FS) (tok : List Char)
    (h : findFlag isWordChar 1 r.info.description = some tok) :
    (scan_video videoId (some r) stream recognize subContent fs0).1 =
      some (tok, Source.description) ∧
    Chan.frames ∉ (scan_video videoId (some r) stream recognize subContent fs0).2.2 := by
  have hsds : scan_description_and_subs r.info videoId (r.written ++ fs0) subContent =
      (some (tok, Source.description), [Chan.desc]) := by
    unfold scan_description_and_subs
    rw [h]
  simp only [scan_video, hsds]
  exact ⟨trivial, by simp⟩

/-- Witness for description_priority: the description holds FLAG_desc1
while every frame would OCR to a different valid token FLAG_OTHER12; the
reported result is the description token. -/
theorem description_priority_witness :
    (scan_video ("v")
        (some ⟨⟨String.toList ("see FLAG_desc1 here"), ("v"), [], none, none⟩,
          [TmpFile.media ("v.mp4")]⟩)
        (fun _ => ⟨30, 30, fun _ => some (String.toList ("FLAG_OTHER12"))⟩)
        (fun t => some t) (fun _ => []) []).1 =
      some (String.toList ("FLAG_desc1"), Source.description) ∧
    Chan.frames ∉ (scan_video ("v")
        (some ⟨⟨String.toList ("see FLAG_desc1 here"), ("v"), [], none, none⟩,
          [TmpFile.media ("v.mp4")]⟩)
        (fun _ => ⟨30, 30, fun _ => some (String.toList ("FLAG_OTHER12"))⟩)
        (fun t => some t) (fun _ => []) []).2.2 :=
  description_priority ("v")
    ⟨⟨String.toList ("see FLAG_desc1 here"), ("v"), [], none, none⟩,
      [TmpFile.media ("v.mp4")]⟩
    (fun _ => ⟨30, 30, fun _ => some (String.toList ("FLAG_OTHER12"))⟩)
    (fun t => some t) (fun _ => []) [] (String.toList ("FLAG_desc1")) (by decide)

/-- A metadata row of the batch in main (video_flag_extractor.py) and of
get_and_sort_youtube_videos (youtube_extractor.py): only the sort key and
an identifying payload matter for the ordering claims. upload_date is the
datetime encoded as the number YYYYMMDD; datetime order coincides with
numeric order of this encoding. -/
structure VideoMeta where
  upload_date : Nat
  url : String
deriving DecidableEq

/-- Insertion step of the stable descending sort: the new element x goes
before the first element y with y.upload_date ≤ x.upload_date. Since the
list is consumed front to back by sortByDateDesc, x is earlier in
discovery order than everything already sorted, so on ties x must stay in
front - which this condition does. -/
def insertByDateDesc (x : VideoMeta) : List VideoMeta → List VideoMeta
  | [] => [x]
  | y :: ys =>
    if y.upload_date ≤ x.upload_date then x :: y :: ys
    else y :: insertByDateDesc x ys

/-- Embeds videos.sort(key=lambda x: x["upload_date"], reverse=True) of
both scripts. Python's list.sort is a stable sort; with reverse=True it
orders the keys descending while keeping the original order of equal
keys. That reordering is unique - it is determined by being a permutation
that is pairwise descending and leaves every equal-key subsequence
unchanged (the three properties proved below) - and this insertion sort
realizes it. -/
def sortByDateDesc : List VideoMeta → List VideoMeta
  | [] => []
  | x :: xs => insertByDateDesc x (sortByDateDesc xs)

lemma insertByDateDesc_perm (x : VideoMeta) (l : List VideoMeta) :
    List.Perm (insertByDateDesc x l) (x :: l) := by
  induction l with
  | nil => exact List.Perm.refl _
  | cons y ys ih =>
    unfold insertByDateDesc
    split
    · exact List.Perm.refl _
    · exact (ih.cons y).trans (List.Perm.swap x y ys)

lemma sortByDateDesc_perm (l : List VideoMeta) : List.Perm (sortByDateDesc l) l := by
  induction l with
  | nil => exact List.Perm.refl _
  | cons x xs ih => exact (insertByDateDesc_perm x _).trans (ih.cons x)

lemma insertByDateDesc_pairwise {x : VideoMeta} {l : List VideoMeta}
    (h : List.Pairwise (fun a b => b.upload_date ≤ a.upload_date) l) :
    List.Pairwise (fun a b => b.upload_date ≤ a.upload_date) (insertByDateDesc x l) := by
  induction l with
  | nil => simp [insertByDateDesc]
  | cons y ys ih =>
    rw [List.pairwise_cons] at h
    unfold insertByDateDesc
    split
    · rename_i hyx
      rw [List.pairwise_cons]
      constructor
      · intro z hz
        rcases List.mem_cons.mp hz with rfl | hz'
        · exact hyx
        · exact le_trans (h.1 z hz') hyx
      · exact List.pairwise_cons.mpr h
    · rename_i hyx
      push_neg at hyx
      rw [List.pairwise_cons]
      constructor
      · intro z hz
        have hz' := (insertByDateDesc_perm x ys).mem_iff.mp hz
        rcases List.mem_cons.mp hz' with rfl | hz''
        · exact le_of_lt hyx
        · exact h.1 z hz''
      · exact ih h.2

lemma sortByDateDesc_pairwise (l : List VideoMeta) :
    List.Pairwise (fun a b => b.upload_date ≤ a.upload_date) (sortByDateDesc l) := by
  induction l with
  | nil => simp [sortByDateDesc]
  | cons x xs ih => exact insertByDateDesc_pairwise ih

lemma filter_insertByDateDesc (x : VideoMeta) (l : List VideoMeta) (d : Nat) :
    (insertByDateDesc x l).filter (fun v => decide (v.upload_date = d)) =
    (x :: l).filter (fun v => decide (v.upload_date = d)) := by
  induction l with
  | nil => rfl
  | cons y ys ih =>
    unfold insertByDateDesc
    split
    · rfl
    · rename_i hyx
      push_neg at hyx
      simp only [List.filter_cons, ih]
      by_cases px : x.upload_date = d
      · have py : ¬ (y.upload_date = d) := by omega
        simp [px, py]
      · by_cases py : y.upload_date = d
        · simp [px, py]
        · simp [px, py]

lemma filter_sortByDateDesc (l : List VideoMeta) (d : Nat) :
    (sortByDateDesc l).filter (fun v => decide (v.upload_date = d)) =
    l.filter (fun v => decide (v.upload_date = d)) := by
  induction l with
  | nil => rfl
  | cons x xs ih =>
    unfold sortByDateDesc
    rw [filter_insertByDateDesc]
    rw [List.filter_cons, List.filter_cons, ih]

/-- C9: the batch visiting order is the upload-date-descending reordering
of the resolved references with ties kept in discovery order: it is a
permutation of the input, pairwise descending on upload_date, and leaves
every equal-date subsequence unchanged (stability); on references dated
2024-01-01, 2024-03-01, 2024-02-01 the visiting order is 2024-03-01,
2024-02-01, 2024-01-01. -/
theorem batch_visit_order :
    (∀ l : List VideoMeta, List.Perm (sortByDateDesc l) l) ∧
    (∀ l : List VideoMeta,
      List.Pairwise (fun a b => b.upload_date ≤ a.upload_date) (sortByDateDesc l)) ∧
    (∀ (l : List VideoMeta) (d : Nat),
      (sortByDateDesc l).filter (fun v => decide (v.upload_date = d)) =
      l.filter (fun v => decide (v.upload_date = d))) ∧
    sortByDateDesc [⟨20240101, ("a")⟩, ⟨20240301, ("b")⟩, ⟨20240201, ("c")⟩] =
      [⟨20240301, ("b")⟩, ⟨20240201, ("c")⟩, ⟨20240101, ("a")⟩] :=
  ⟨sortByDateDesc_perm, sortByDateDesc_pairwise, filter_sortByDateDesc, by decide⟩

end FlagLeak
